import Mathlib

/-!
Verification of the credit-crawler pipeline in `src/main.py` (class
`CreditCrawler` and helpers) against its natural-language specification.

The Python program is shallowly embedded: Python values that flow through
the pipeline are modelled by the inductive type `PyVal`, Python `dict`s by
insertion-ordered association lists, and fallible Python code by
`Option`/`Except`.  The AES block cipher and the JSON parser come from
external libraries (`pycryptodome`, the standard `json` module), not from
this repository, so they are passed in as explicit function parameters;
everything the repository itself does — base64 handling, CBC chaining over
the block function, null-stripping, UTF-8 decoding, pagination, retry
control flow, and record normalization — is translated directly from the
source.
-/

namespace Crawler

/-- Model of the Python runtime values that appear in the pipeline.
Floats carry exact rationals: the program never performs float arithmetic,
it only copies, compares presence, and defaults them, so any numeric
carrier is faithful.  Python `bool`/`None` never reach the modelled code
paths and are omitted. -/
inductive PyVal where
  | str : String → PyVal
  | int : Int → PyVal
  | float : ℚ → PyVal
  | list : List PyVal → PyVal
  | dict : List (String × PyVal) → PyVal

/-- Python dictionaries, as insertion-ordered association lists with
unique keys (Python dict semantics). -/
abbrev Dict := List (String × PyVal)

/-- Python `d[k]` / `d.get(k)` lookup. -/
def dictGet : Dict → String → Option PyVal
  | [], _ => Option.none
  | (k', v) :: t, k => if k' = k then some v else dictGet t k

/-- Python `k in d`. -/
def dictContains (d : Dict) (k : String) : Bool :=
  (dictGet d k).isSome

/-- Python `d[k] = v`: replaces the value in place when the key exists,
otherwise appends the new key at the end (Python insertion order). -/
def dictInsert : Dict → String → PyVal → Dict
  | [], k, v => [(k, v)]
  | (k', v') :: t, k, v =>
      if k' = k then (k, v) :: t else (k', v') :: dictInsert t k v

/-- Python truthiness, as used by the `or` chains in the source. -/
def PyVal.truthy : PyVal → Bool
  | .str s => s ≠ ""
  | .int n => n ≠ 0
  | .float q => q ≠ 0
  | .list l => !l.isEmpty
  | .dict d => !d.isEmpty

/-- Python `a or b`: `a` when truthy, else `b`. -/
def pyOr (a b : PyVal) : PyVal :=
  if a.truthy then a else b

/-- Python `isinstance(v, (int, float))`. -/
def isNum : PyVal → Bool
  | .int _ => true
  | .float _ => true
  | _ => false

/-- Python `isinstance(v, float)`. -/
def isFloatV : PyVal → Bool
  | .float _ => true
  | _ => false

/-- Python iteration `for x in v`: lists yield their elements, strings
their characters, dicts their keys; other values raise `TypeError`. -/
def pyIter : PyVal → Option (List PyVal)
  | .list l => some l
  | .str s => some (s.data.map (fun c => PyVal.str c.toString))
  | .dict d => some (d.map (fun kv => PyVal.str kv.1))
  | _ => Option.none

/-- Coerce a `PyVal` to a dict, failing (as Python attribute/type errors
do) on anything else. -/
def asDict : PyVal → Option Dict
  | .dict d => some d
  | _ => Option.none

/-! ### base64 (`base64.b64decode`, standard library)

`_decrypt_data` calls `base64.b64decode(encrypted)` with default
(non-strict) validation: characters outside the base64 alphabet and the
padding character are discarded, the remaining length (data plus padding)
must be a multiple of four, and a final quad of a single data character is
rejected (`binascii.Error`).  Leftover bits in the final group are
discarded without a check, as in CPython. -/

/-- Value of one base64 alphabet character. -/
def b64val (c : Char) : Option Nat :=
  if 'A' ≤ c ∧ c ≤ 'Z' then some (c.toNat - 65)
  else if 'a' ≤ c ∧ c ≤ 'z' then some (c.toNat - 97 + 26)
  else if '0' ≤ c ∧ c ≤ '9' then some (c.toNat - 48 + 52)
  else if c = '+' then some 62
  else if c = '/' then some 63
  else Option.none

/-- Decode a list of 6-bit groups into bytes; a trailing group of one
character is an error, leftover bits are dropped. -/
def b64chunks : List Nat → Option (List Nat)
  | [] => some []
  | [_] => Option.none
  | [a, b] => some [(a * 4 + b / 16) % 256]
  | [a, b, c] => some [(a * 4 + b / 16) % 256, (b % 16 * 16 + c / 4) % 256]
  | a :: b :: c :: d :: rest =>
      (b64chunks rest).map
        (fun tl => (a * 4 + b / 16) % 256 :: (b % 16 * 16 + c / 4) % 256 ::
          (c % 4 * 64 + d) % 256 :: tl)

/-- Python `base64.b64decode` on a text input (non-strict mode). -/
def b64decode (s : String) : Option (List Nat) :=
  let cs := s.data.filter (fun c => (b64val c).isSome || c = '=')
  let ds := cs.takeWhile (fun c => c ≠ '=')
  let pads := cs.drop ds.length
  if pads.any (fun c => c ≠ '=') then Option.none
  else if (ds.length + pads.length) % 4 ≠ 0 then Option.none
  else b64chunks (ds.map (fun c => (b64val c).getD 0))

/-! ### AES-CBC decryption (`Crypto.Cipher.AES`, external library)

`AES.new(key, AES.MODE_CBC, iv).decrypt(ct)` requires the ciphertext
length to be a multiple of the 16-byte block size (`ValueError`
otherwise) and performs CBC chaining around the AES block decryption.
The AES-256 block permutation itself lives in `pycryptodome`, outside
this repository, so it is a parameter `blockDecrypt` below; the CBC
chaining and the length check are modelled explicitly. -/

/-- The fixed initialization vector `b"sskjKingFree5138"` from
`AppConfig.AES_IV`, as bytes. -/
def aesIV : List Nat :=
  [0x73, 0x73, 0x6B, 0x6A, 0x4B, 0x69, 0x6E, 0x67,
   0x46, 0x72, 0x65, 0x65, 0x35, 0x31, 0x33, 0x38]

/-- Bytewise XOR of two equal-length blocks. -/
def xorBytes (a b : List Nat) : List Nat :=
  List.zipWith (fun x y => Nat.xor x y) a b

/-- CBC-mode decryption, by recursion on a block-count fuel so that the
definition reduces computationally: each plaintext block is the block
decryption of the ciphertext block XORed with the previous ciphertext
block (the IV for the first block). -/
def cbcDecryptAux (blockDecrypt : List Nat → List Nat) :
    Nat → List Nat → List Nat → List Nat
  | 0, _, _ => []
  | fuel + 1, prev, ct =>
      if ct.isEmpty then []
      else
        let blk := ct.take 16
        xorBytes (blockDecrypt blk) prev ++
          cbcDecryptAux blockDecrypt fuel blk (ct.drop 16)

/-- CBC-mode decryption of a whole ciphertext starting from the IV. -/
def cbcDecrypt (blockDecrypt : List Nat → List Nat)
    (iv ct : List Nat) : List Nat :=
  cbcDecryptAux blockDecrypt ct.length iv ct

/-! ### the tail of `_decrypt_data`: null strip and UTF-8 decode -/

/-- Python `bytes.rstrip(b"\x00")`: drop trailing zero bytes. -/
def rstripNulls (bs : List Nat) : List Nat :=
  (bs.reverse.dropWhile (fun b => b = 0)).reverse

/-- Continuation byte test for UTF-8 (`0x80..0xBF`). -/
def isCont (b : Nat) : Bool :=
  0x80 ≤ b && b ≤ 0xBF

/-- Strict UTF-8 decoding to a list of code points, exactly as Python's
`bytes.decode("utf-8")`: rejects overlong forms, surrogates, and code
points above `U+10FFFF`; `Option.none` models `UnicodeDecodeError`. -/
def utf8Decode : List Nat → Option (List Nat)
  | [] => some []
  | b1 :: t1 =>
    if b1 < 0x80 then
      (utf8Decode t1).map (fun cs => b1 :: cs)
    else if 0xC2 ≤ b1 ∧ b1 ≤ 0xDF then
      match t1 with
      | b2 :: t2 =>
          if isCont b2 then
            (utf8Decode t2).map (fun cs => ((b1 - 0xC0) * 64 + (b2 - 0x80)) :: cs)
          else Option.none
      | [] => Option.none
    else if 0xE0 ≤ b1 ∧ b1 ≤ 0xEF then
      match t1 with
      | b2 :: b3 :: t3 =>
          let lo2 := if b1 = 0xE0 then 0xA0 else 0x80
          let hi2 := if b1 = 0xED then 0x9F else 0xBF
          if lo2 ≤ b2 ∧ b2 ≤ hi2 ∧ isCont b3 then
            (utf8Decode t3).map
              (fun cs => ((b1 - 0xE0) * 4096 + (b2 - 0x80) * 64 + (b3 - 0x80)) :: cs)
          else Option.none
      | _ => Option.none
    else if 0xF0 ≤ b1 ∧ b1 ≤ 0xF4 then
      match t1 with
      | b2 :: b3 :: b4 :: t4 =>
          let lo2 := if b1 = 0xF0 then 0x90 else 0x80
          let hi2 := if b1 = 0xF4 then 0x8F else 0xBF
          if lo2 ≤ b2 ∧ b2 ≤ hi2 ∧ isCont b3 ∧ isCont b4 then
            (utf8Decode t4).map
              (fun cs => ((b1 - 0xF0) * 262144 + (b2 - 0x80) * 4096 +
                (b3 - 0x80) * 64 + (b4 - 0x80)) :: cs)
          else Option.none
      | _ => Option.none
    else Option.none

/-! ### `CreditCrawler._decrypt_data` -/

/-- The distinct underlying exceptions that the bare `except` clause of
`_decrypt_data` converts into `DecryptionError`. -/
inductive DecReason where
  | binasciiError
  | valueError
  | unicodeDecodeError
deriving DecidableEq

/-- Model of `CreditCrawler._decrypt_data` (src/main.py lines 328-335):
base64-decode the input, AES-CBC-decrypt it with the fixed key and IV
(`blockDecrypt` is the external AES block permutation under the fixed
key), strip trailing null bytes, and decode as UTF-8.  Every exception in
the body is re-raised as `DecryptionError`; the `DecReason` error value
records which underlying exception occurred.  The result is the decoded
text as its list of code points. -/
def decrypt_data (blockDecrypt : List Nat → List Nat) (encrypted : String) :
    Except DecReason (List Nat) :=
  match b64decode encrypted with
  | Option.none => Except.error DecReason.binasciiError
  | some ct =>
    if ct.length % 16 ≠ 0 then Except.error DecReason.valueError
    else
      match utf8Decode (rstripNulls (cbcDecrypt blockDecrypt aesIV ct)) with
      | Option.none => Except.error DecReason.unicodeDecodeError
      | some cs => Except.ok cs

/-! ### `CreditCrawler._fetch_page`

`_fetch_page` unwraps the envelope's `data` field, calls `_decrypt_data`
(whose failures are `DecryptionError`), and then calls `json.loads` on
the decoded text **outside** any try block, so a JSON syntax error
propagates as a bare `json.JSONDecodeError`.  The JSON parser is the
Python standard library, external to the repository, so it is a
parameter `jsonParse` mapping decoded text (code points) to the parsed
document; `Option.none` models `json.JSONDecodeError`. -/

/-- The exceptions that can escape `_fetch_page` at the decryption and
parsing stage (network errors aside). -/
inductive FetchErr where
  | decryptionError (reason : DecReason)
  | jsonDecodeError
deriving DecidableEq

/-- Whether a `_fetch_page` failure is a `DecryptionError` (as opposed to
an unwrapped `json.JSONDecodeError`). -/
def FetchErr.isDecryptionError : FetchErr → Bool
  | .decryptionError _ => true
  | .jsonDecodeError => false

/-- Model of `CreditCrawler._fetch_page` (src/main.py lines 342-354) from
the envelope's `data` string on: decrypt via `_decrypt_data`, then parse
the decoded text with `json.loads`. -/
def fetch_page (blockDecrypt : List Nat → List Nat)
    (jsonParse : List Nat → Option PyVal) (respData : String) :
    Except FetchErr PyVal :=
  match decrypt_data blockDecrypt respData with
  | Except.error r => Except.error (FetchErr.decryptionError r)
  | Except.ok text =>
    match jsonParse text with
    | Option.none => Except.error FetchErr.jsonDecodeError
    | some doc => Except.ok doc

/-! ### `CreditCrawler._get_total_pages` -/

/-- Model of `CreditCrawler._get_total_pages` (src/main.py lines
337-340): `(page_data.get("total", 0) + PAGE_SIZE - 1) // PAGE_SIZE`,
with the page size (`AppConfig.PAGE_SIZE`, default 10) passed
explicitly. -/
def get_total_pages (total pageSize : Nat) : Nat :=
  (total + pageSize - 1) / pageSize

/-! ### `CreditCrawler._supply_qual_fields` and `_standardize_data` -/

/-- The configured baseline score `AppConfig.QUAL_DEFAULT_SCORE`, the
Python float `100.0`. -/
def QUAL_DEFAULT_SCORE : PyVal := PyVal.float 100

/-- One iteration of the loop in `_supply_qual_fields`: if `f` is absent
it is set to the default; if it is present, it is overwritten by the
default only when the default is a float and the current value is not
numeric. -/
def supplyField (q : Dict) (f : String) (d : PyVal) : Dict :=
  match dictGet q f with
  | Option.none => dictInsert q f d
  | some v =>
      if isFloatV d = true ∧ isNum v = false then dictInsert q f d else q

/-- Model of `CreditCrawler._supply_qual_fields` (src/main.py lines
423-437): the defaults table is built first (so `score`'s default reads
`csf` from the unmodified dict), then applied field by field in the
source's insertion order `score, zxjf, cxdj, kf, jcf`. -/
def supply_qual_fields (q : Dict) : Dict :=
  let scoreDefault := (dictGet q "csf").getD QUAL_DEFAULT_SCORE
  supplyField
    (supplyField
      (supplyField
        (supplyField
          (supplyField q "score" scoreDefault)
          "zxjf" (PyVal.int 0))
        "cxdj" (PyVal.str ""))
      "kf" (PyVal.int 0))
    "jcf" (PyVal.int 0)

/-- The canonical company record built by `_standardize_data`
(`CompanyData` in the source). -/
structure CompanyData where
  cioName : PyVal
  eqtName : PyVal
  orgId : PyVal
  cecId : PyVal
  csf : PyVal
  qualifications : List Dict

/-- The synthetic qualification dict that `_standardize_data` creates
when a record has no qualification entries, with the source's key
order. -/
def defaultQual (eqt csfv orgId cecId : PyVal) (timeStr : String) : Dict :=
  [("zzmx", eqt), ("score", csfv), ("zxjf", PyVal.int 0),
   ("cxdj", PyVal.str ""), ("csf", csfv), ("kf", PyVal.int 0),
   ("jcf", PyVal.int 0),
   ("eqlId", pyOr (pyOr orgId cecId) (PyVal.str ("default_" ++ timeStr)))]

/-- Model of `CreditCrawler._standardize_data` (src/main.py lines
390-421), value-level semantics.  `timeStr` stands for the
`time.time()` reading used in the synthetic identifier.  `Option.none`
models the exceptions Python raises on malformed input: a missing core
key (`KeyError`), a non-iterable `zzmxcxfArray` (`TypeError`), or an
array element that is not a dict (`_supply_qual_fields` raising on
`qual.get`/`in qual`). -/
def collectQuals : List PyVal → Option (List Dict)
  | [] => some []
  | item :: rest =>
    match item with
    | PyVal.dict d =>
        (collectQuals rest).map (fun t => supply_qual_fields d :: t)
    | _ => Option.none

def standardize (timeStr : String) (raw : Dict) : Option CompanyData := do
  let cio ← dictGet raw "cioName"
  let eqt ← dictGet raw "eqtName"
  let orgId := (dictGet raw "orgId").getD (PyVal.str "")
  let cecId := (dictGet raw "cecId").getD (PyVal.str "")
  let csfv := (dictGet raw "csf").getD QUAL_DEFAULT_SCORE
  let arr := (dictGet raw "zzmxcxfArray").getD (PyVal.list [])
  let items ← pyIter arr
  let quals ← collectQuals items
  if quals.isEmpty then
    some ⟨cio, eqt, orgId, cecId, csfv,
      [defaultQual eqt csfv orgId cecId timeStr]⟩
  else
    some ⟨cio, eqt, orgId, cecId, csfv, quals⟩

/-! ### reference-level semantics of `_standardize_data`

Python dicts are mutable heap objects: `_supply_qual_fields(qual)`
updates the record's nested qualification dicts in place, and
`company['qualifications'].append(qual)` stores the same references.  To
state that claim, qualification dicts live in an explicit heap and the
raw record's `zzmxcxfArray` holds heap addresses. -/

/-- A heap of qualification dict objects; addresses are list indices. -/
abbrev Heap := List Dict

/-- Apply `_supply_qual_fields` in place at each address in order; fails
(`Option.none`) on a dangling address. -/
def supplyAll : List Nat → Heap → Option Heap
  | [], h => some h
  | a :: rest, h => do
      let d ← h[a]?
      supplyAll rest (h.set a (supply_qual_fields d))

/-- A company record whose `qualifications` field holds heap addresses:
the references Python stores, rather than copies. -/
structure CompanyDataRef where
  cioName : PyVal
  eqtName : PyVal
  orgId : PyVal
  cecId : PyVal
  csf : PyVal
  qualifications : List Nat

/-- Model of `CreditCrawler._standardize_data`, reference-level
semantics.  `raw` carries the record's flat fields; `arrAddrs` is the
list of heap addresses stored under its `zzmxcxfArray` key (empty both
when the key is absent and when the stored list is empty, as
`raw_data.get('zzmxcxfArray', [])` collapses the two).  Each dict is
updated in place via `_supply_qual_fields` and its address is appended
to `qualifications`; when there are no entries the synthetic dict is
allocated at a fresh address. -/
def standardize_heap (timeStr : String) (raw : Dict) (arrAddrs : List Nat)
    (h : Heap) : Option (Heap × CompanyDataRef) := do
  let cio ← dictGet raw "cioName"
  let eqt ← dictGet raw "eqtName"
  let orgId := (dictGet raw "orgId").getD (PyVal.str "")
  let cecId := (dictGet raw "cecId").getD (PyVal.str "")
  let csfv := (dictGet raw "csf").getD QUAL_DEFAULT_SCORE
  let h' ← supplyAll arrAddrs h
  if arrAddrs.isEmpty then
    some (h' ++ [defaultQual eqt csfv orgId cecId timeStr],
      ⟨cio, eqt, orgId, cecId, csfv, [h'.length]⟩)
  else
    some (h', ⟨cio, eqt, orgId, cecId, csfv, arrAddrs⟩)

/-! ### `CreditCrawler._crawl_pages`

The driver loops over pages `1..totalPages`; each page gets up to
`PAGE_RETRY_MAX` attempts.  An exception on a non-final attempt logs a
warning, refreshes the captcha and retries; on the final attempt it logs
an error and the page is skipped.  `_refresh_captcha` exhausting its own
budget raises `NetworkError`, which propagates and aborts the whole
crawl.  Fetching is abstracted by an oracle `fetch page attempt` giving
the parsed page document of that attempt (`Option.none` models any
exception inside the try block's fetch), and captcha refreshing by an
oracle `refresh page attempt` (`false` models `_refresh_captcha` raising
`NetworkError`). -/

/-- Log events of the page loop in `_crawl_pages`. -/
inductive LogEntry where
  | pageOk (page count : Nat)
  | warnRetry (page : Nat)
  | errorSkip (page : Nat)
deriving DecidableEq

/-- The per-item block of `_crawl_pages`: items missing a core field are
skipped with a warning; the others are standardized.  An exception from
`_standardize_data` (or a non-dict item, whose `.keys()` raises) fails
the whole page attempt. -/
def processItems (timeStr : String) : List PyVal → Option (List CompanyData)
  | [] => some []
  | item :: rest =>
    match item with
    | PyVal.dict d =>
        if dictContains d "cioName" && dictContains d "eqtName" then do
          let c ← standardize timeStr d
          let cs ← processItems timeStr rest
          pure (c :: cs)
        else processItems timeStr rest
    | _ => Option.none

/-- Extract `page_data.get("data", [])` from a fetched page document and
iterate over it. -/
def pageItems (pageData : PyVal) : Option (List PyVal) :=
  match pageData with
  | PyVal.dict d => pyIter ((dictGet d "data").getD (PyVal.list []))
  | _ => Option.none

/-- One complete try-block body for page `p`, attempt `a`: fetch, unwrap
the item list, validate and standardize every item. -/
def attemptPage (fetch : Nat → Nat → Option PyVal) (timeStr : String)
    (p a : Nat) : Option (List CompanyData) :=
  fetch p a >>= pageItems >>= fun items => processItems timeStr items

/-- The `for attempt in range(PAGE_RETRY_MAX)` loop of `_crawl_pages` for
one page, by recursion on the remaining attempts (`attempt + remaining =
PAGE_RETRY_MAX` at every call).  Returns the page's accumulated records
and log entries, or `Except.error ()` when a captcha refresh raises
`NetworkError`. -/
def pageLoop (fetch : Nat → Nat → Option PyVal)
    (refresh : Nat → Nat → Bool) (timeStr : String) (p retryMax : Nat) :
    Nat → Nat → Except Unit (List CompanyData × List LogEntry)
  | _, 0 => Except.ok ([], [])
  | attempt, rem + 1 =>
    match attemptPage fetch timeStr p attempt with
    | some cs => Except.ok (cs, [LogEntry.pageOk p cs.length])
    | Option.none =>
      if attempt = retryMax - 1 then
        Except.ok ([], [LogEntry.errorSkip p])
      else if refresh p attempt then
        match pageLoop fetch refresh timeStr p retryMax (attempt + 1) rem with
        | Except.ok (cs, logs) => Except.ok (cs, LogEntry.warnRetry p :: logs)
        | Except.error e => Except.error e
      else Except.error ()

/-- The `for page in range(1, total_pages + 1)` loop of `_crawl_pages`,
by recursion on the number of remaining pages. -/
def crawlGo (fetch : Nat → Nat → Option PyVal)
    (refresh : Nat → Nat → Bool) (timeStr : String) (retryMax : Nat) :
    Nat → Nat → Except Unit (List CompanyData × List LogEntry)
  | _, 0 => Except.ok ([], [])
  | page, rem + 1 =>
    match pageLoop fetch refresh timeStr page retryMax 0 retryMax with
    | Except.error e => Except.error e
    | Except.ok (cs, logs) =>
      match crawlGo fetch refresh timeStr retryMax (page + 1) rem with
      | Except.error e => Except.error e
      | Except.ok (cs', logs') => Except.ok (cs ++ cs', logs ++ logs')

/-- Model of `CreditCrawler._crawl_pages` (src/main.py lines 356-388). -/
def crawl_pages (fetch : Nat → Nat → Option PyVal)
    (refresh : Nat → Nat → Bool) (timeStr : String)
    (retryMax totalPages : Nat) :
    Except Unit (List CompanyData × List LogEntry) :=
  crawlGo fetch refresh timeStr retryMax 1 totalPages

/-- The records a single page contributes when every needed captcha
refresh succeeds: those of its first successful attempt, or none when
all `retryMax` attempts fail. -/
def pageYield (fetch : Nat → Nat → Option PyVal) (timeStr : String)
    (retryMax p : Nat) : List CompanyData :=
  ((List.range retryMax).findSome?
    (fun a => attemptPage fetch timeStr p a)).getD []

/-! ### spec-side comparison definitions

The next two definitions follow the specification's words, not the
source; they exist only to state claims that compare the two. -/

/-- PKCS7 padding validity as the specification describes it: the last
byte `n` satisfies `1 ≤ n ≤ 16` and the final `n` bytes all equal `n`. -/
def pkcs7Valid (pt : List Nat) : Bool :=
  match pt.getLast? with
  | Option.none => false
  | some n =>
      decide (1 ≤ n) && decide (n ≤ 16) && decide (n ≤ pt.length) &&
        ((pt.drop (pt.length - n)).all (fun b => b = n))

/-- Decodability in the GB-family fallback encoding the specification
names: ASCII bytes, or GBK two-byte sequences (lead byte `0x81..0xFE`,
trail byte `0x40..0xFE` except `0x7F`). -/
def gbkDecodable : List Nat → Bool
  | [] => true
  | b :: rest =>
      if b < 0x80 then gbkDecodable rest
      else
        match rest with
        | b2 :: rest' =>
            decide (0x81 ≤ b) && decide (b ≤ 0xFE) &&
              decide (0x40 ≤ b2) && decide (b2 ≤ 0xFE) &&
              decide (b2 ≠ 0x7F) && gbkDecodable rest'
        | [] => false

/-! ## Helper lemmas -/

theorem dictGet_dictInsert_self (q : Dict) (k : String) (v : PyVal) :
    dictGet (dictInsert q k v) k = some v := by
  induction q with
  | nil => simp [dictInsert, dictGet]
  | cons kv t ih =>
      by_cases h : kv.1 = k
      · simp [dictInsert, dictGet, h]
      · simp [dictInsert, dictGet, h, ih]

theorem dictGet_dictInsert_ne (q : Dict) (k g : String) (v : PyVal)
    (h : k ≠ g) : dictGet (dictInsert q k v) g = dictGet q g := by
  induction q with
  | nil => simp [dictInsert, dictGet, h]
  | cons kv t ih =>
      by_cases hk : kv.1 = k
      · simp [dictInsert, dictGet, hk, h]
      · by_cases hg : kv.1 = g
        · simp [dictInsert, dictGet, hk, hg, Ne.symm h]
        · simp [dictInsert, dictGet, hk, hg, ih]

theorem dictGet_supplyField_ne (q : Dict) (f g : String) (d : PyVal)
    (h : f ≠ g) : dictGet (supplyField q f d) g = dictGet q g := by
  cases hv : dictGet q f with
  | none =>
      simp only [supplyField, hv]
      exact dictGet_dictInsert_ne q f g d h
  | some v =>
      simp only [supplyField, hv]
      by_cases hc : isFloatV d = true ∧ isNum v = false
      · rw [if_pos hc]
        exact dictGet_dictInsert_ne q f g d h
      · rw [if_neg hc]

theorem dictGet_supplyField_absent (q : Dict) (f : String) (d : PyVal)
    (h : dictGet q f = Option.none) :
    dictGet (supplyField q f d) f = some d := by
  simp only [supplyField, h]
  exact dictGet_dictInsert_self q f d

theorem supplyField_keep (q : Dict) (f : String) (d v : PyVal)
    (hv : dictGet q f = some v)
    (h : ¬(isFloatV d = true ∧ isNum v = false)) :
    supplyField q f d = q := by
  simp only [supplyField, hv]
  rw [if_neg h]

theorem dictGet_supplyField_coerce (q : Dict) (f : String) (d v : PyVal)
    (hv : dictGet q f = some v) (hd : isFloatV d = true)
    (hn : isNum v = false) :
    dictGet (supplyField q f d) f = some d := by
  simp only [supplyField, hv]
  rw [if_pos ⟨hd, hn⟩]
  exact dictGet_dictInsert_self q f d

theorem supplyField_not_float (q : Dict) (f : String) (d v : PyVal)
    (hv : dictGet q f = some v) (hd : isFloatV d = false) :
    supplyField q f d = q :=
  supplyField_keep q f d v hv (by simp [hd])

/-! ## Claim C1: PKCS7 padding validation

The specification claims `_decrypt_data` validates PKCS7 padding as a
hard check: last byte `n` with `1 ≤ n ≤ 16`, final `n` bytes uniform,
any violation raising `DecryptionError`.  The code performs no such
check: it merely strips trailing `\x00` bytes. -/

/-- Claim C1 is false on the code: this base64 ciphertext's CBC
plaintext (under the identity block permutation, standing for AES with
the fixed key) ends in `0x00`, violating PKCS7 (a last byte of 0 is
outside `1..16`), yet `_decrypt_data` succeeds with the text
`"AAAAAAAAAAAAAAA"` instead of raising `DecryptionError`. -/
theorem claim1_counterexample :
    b64decode "MjIqKwooLyYHMyQkdHByOA==" =
      some [0x32, 0x32, 0x2A, 0x2B, 0x0A, 0x28, 0x2F, 0x26,
            0x07, 0x33, 0x24, 0x24, 0x74, 0x70, 0x72, 0x38] ∧
    cbcDecrypt (fun b => b) aesIV
      [0x32, 0x32, 0x2A, 0x2B, 0x0A, 0x28, 0x2F, 0x26,
       0x07, 0x33, 0x24, 0x24, 0x74, 0x70, 0x72, 0x38] =
      [65, 65, 65, 65, 65, 65, 65, 65, 65, 65, 65, 65, 65, 65, 65, 0] ∧
    pkcs7Valid
      [65, 65, 65, 65, 65, 65, 65, 65, 65, 65, 65, 65, 65, 65, 65, 0] =
      false ∧
    decrypt_data (fun b => b) "MjIqKwooLyYHMyQkdHByOA==" =
      Except.ok [65, 65, 65, 65, 65, 65, 65, 65, 65, 65, 65, 65, 65, 65, 65] :=
  ⟨rfl, rfl, rfl, rfl⟩

/-- Claim C1 as amended: `_decrypt_data` performs no PKCS7 validation at
all — it strips trailing null bytes — so a well-formed base64 input of
block-aligned length whose null-stripped plaintext is valid UTF-8
decrypts successfully even when its PKCS7 padding is invalid. -/
theorem claim1_thm (blockDecrypt : List Nat → List Nat) (s : String)
    (bs cs : List Nat)
    (h1 : b64decode s = some bs)
    (h2 : bs.length % 16 = 0)
    (h3 : utf8Decode (rstripNulls (cbcDecrypt blockDecrypt aesIV bs)) = some cs)
    (_h4 : pkcs7Valid (cbcDecrypt blockDecrypt aesIV bs) = false) :
    decrypt_data blockDecrypt s = Except.ok cs := by
  simp only [decrypt_data, h1]
  rw [if_neg (by simp [h2]), h3]

/-- Witness for `claim1_thm` at the counterexample input. -/
theorem claim1_witness :
    decrypt_data (fun b => b) "MjIqKwooLyYHMyQkdHByOA==" =
      Except.ok [65, 65, 65, 65, 65, 65, 65, 65, 65, 65, 65, 65, 65, 65, 65] :=
  claim1_thm (fun b => b) "MjIqKwooLyYHMyQkdHByOA=="
    [0x32, 0x32, 0x2A, 0x2B, 0x0A, 0x28, 0x2F, 0x26,
     0x07, 0x33, 0x24, 0x24, 0x74, 0x70, 0x72, 0x38]
    [65, 65, 65, 65, 65, 65, 65, 65, 65, 65, 65, 65, 65, 65, 65]
    rfl rfl rfl rfl

/-! ## Claim C2: input well-formedness

The specification claims the input must be non-empty and, once decoded,
a multiple of 16 bytes, otherwise `DecryptionError` — in particular that
the empty string fails.  The block-alignment half is true, but the empty
string decodes to zero bytes, which *is* a multiple of 16: pycryptodome
accepts it, and `_decrypt_data("")` returns the empty text. -/

/-- Claim C2 is false on the code at the empty input: `_decrypt_data`
returns the empty string successfully instead of raising
`DecryptionError`. -/
theorem claim2_counterexample :
    decrypt_data (fun b => b) "" = Except.ok ([] : List Nat) ∧
    ∀ e, decrypt_data (fun b => b) "" ≠ Except.error e := by
  refine ⟨rfl, ?_⟩
  intro e h
  rw [show decrypt_data (fun b => b) "" = Except.ok [] from rfl] at h
  exact Except.noConfusion h

/-- Claim C2 as amended: an input whose base64 decoding is not a
multiple of the 16-byte block size fails with `DecryptionError` (from
the cipher's `ValueError`), but the empty input is accepted and yields
the empty text. -/
theorem claim2_thm (blockDecrypt : List Nat → List Nat) (s : String)
    (bs : List Nat) (h1 : b64decode s = some bs)
    (h2 : bs.length % 16 ≠ 0) :
    decrypt_data blockDecrypt s = Except.error DecReason.valueError ∧
    decrypt_data blockDecrypt "" = Except.ok [] := by
  constructor
  · simp only [decrypt_data, h1]
    rw [if_pos h2]
  · rfl

/-- Witness for `claim2_thm` at a one-byte (misaligned) input. -/
theorem claim2_witness :
    decrypt_data (fun b => b) "QQ==" = Except.error DecReason.valueError ∧
    decrypt_data (fun b => b) "" = Except.ok [] :=
  claim2_thm (fun b => b) "QQ==" [65] rfl (by decide)

/-! ## Claim C3: encoding fallbacks

The specification claims the decoder retries a GB-family encoding and a
single-byte permissive encoding before failing, so that some non-UTF-8
plaintexts decode successfully.  The code calls `.decode("utf-8")` with
no fallback whatsoever. -/

/-- Claim C3 is false on the code: this ciphertext's null-stripped
plaintext is not valid UTF-8 but is valid GBK (it is `"AAAAAAAAAAAAAA中"`
in GBK), so under the claimed fallback behavior decryption would
succeed; the code raises `DecryptionError` (from `UnicodeDecodeError`). -/
theorem claim3_counterexample :
    rstripNulls
      (cbcDecrypt (fun b => b) aesIV
        [0x32, 0x32, 0x2A, 0x2B, 0x0A, 0x28, 0x2F, 0x26,
         0x07, 0x33, 0x24, 0x24, 0x74, 0x70, 0xE5, 0xE8]) =
      [65, 65, 65, 65, 65, 65, 65, 65, 65, 65, 65, 65, 65, 65, 0xD6, 0xD0] ∧
    utf8Decode
      [65, 65, 65, 65, 65, 65, 65, 65, 65, 65, 65, 65, 65, 65, 0xD6, 0xD0] =
      Option.none ∧
    gbkDecodable
      [65, 65, 65, 65, 65, 65, 65, 65, 65, 65, 65, 65, 65, 65, 0xD6, 0xD0] =
      true ∧
    decrypt_data (fun b => b) "MjIqKwooLyYHMyQkdHDl6A==" =
      Except.error DecReason.unicodeDecodeError :=
  ⟨rfl, rfl, rfl, rfl⟩

/-- Claim C3 as amended: there are no fallback encodings — whenever the
null-stripped plaintext of a well-formed, block-aligned input is not
valid UTF-8, `_decrypt_data` raises `DecryptionError` (from
`UnicodeDecodeError`), even for byte sequences a GB-family or
single-byte encoding could decode. -/
theorem claim3_thm (blockDecrypt : List Nat → List Nat) (s : String)
    (bs : List Nat)
    (h1 : b64decode s = some bs)
    (h2 : bs.length % 16 = 0)
    (h3 : utf8Decode (rstripNulls (cbcDecrypt blockDecrypt aesIV bs)) =
      Option.none) :
    decrypt_data blockDecrypt s = Except.error DecReason.unicodeDecodeError := by
  simp only [decrypt_data, h1]
  rw [if_neg (by simp [h2]), h3]

/-- Witness for `claim3_thm` at the GBK counterexample input. -/
theorem claim3_witness :
    decrypt_data (fun b => b) "MjIqKwooLyYHMyQkdHDl6A==" =
      Except.error DecReason.unicodeDecodeError :=
  claim3_thm (fun b => b) "MjIqKwooLyYHMyQkdHDl6A=="
    [0x32, 0x32, 0x2A, 0x2B, 0x0A, 0x28, 0x2F, 0x26,
     0x07, 0x33, 0x24, 0x24, 0x74, 0x70, 0xE5, 0xE8]
    rfl rfl rfl

/-! ## Claim C4: invalid JSON as `DecryptionError`

The specification claims JSON syntax errors are reported as
`DecryptionError` (reason: invalid JSON).  In the code, `json.loads` is
called in `_fetch_page` *outside* the try block of `_decrypt_data`, so a
JSON syntax error escapes as a bare `json.JSONDecodeError`. -/

/-- Claim C4 is false on the code: with a ciphertext decrypting to
non-JSON text, `_fetch_page` fails with the unwrapped
`json.JSONDecodeError`, which is not a `DecryptionError`. -/
theorem claim4_counterexample :
    fetch_page (fun b => b) (fun _ => Option.none) "MjIqKwooLyYHMyQkdHByeQ==" =
      Except.error FetchErr.jsonDecodeError ∧
    FetchErr.isDecryptionError FetchErr.jsonDecodeError = false :=
  ⟨rfl, rfl⟩

/-- Claim C4 as amended: when decryption succeeds but the decoded text
fails to parse as JSON, `_fetch_page` raises the bare
`json.JSONDecodeError` — not a `DecryptionError`; it is caught only by
the generic per-page handler in `_crawl_pages`. -/
theorem claim4_thm (blockDecrypt : List Nat → List Nat)
    (jsonParse : List Nat → Option PyVal) (s : String) (cs : List Nat)
    (h1 : decrypt_data blockDecrypt s = Except.ok cs)
    (h2 : jsonParse cs = Option.none) :
    fetch_page blockDecrypt jsonParse s = Except.error FetchErr.jsonDecodeError := by
  simp only [fetch_page, h1, h2]

/-- Witness for `claim4_thm` at a concrete decryptable input. -/
theorem claim4_witness :
    fetch_page (fun b => b) (fun _ => Option.none) "MjIqKwooLyYHMyQkdHByeQ==" =
      Except.error FetchErr.jsonDecodeError :=
  claim4_thm (fun b => b) (fun _ => Option.none) "MjIqKwooLyYHMyQkdHByeQ=="
    [65, 65, 65, 65, 65, 65, 65, 65, 65, 65, 65, 65, 65, 65, 65, 65]
    rfl rfl

/-! ## Claim C5: pagination arithmetic -/

/-- Claim C5: `_get_total_pages` computes `ceil(total / pageSize)` for
every non-negative `total` and positive `pageSize`; in particular
`total=95, pageSize=10` give 10 pages, `total=100` gives 10, and
`total=0` gives 0. -/
theorem claim5_thm :
    (∀ total pageSize : Nat, 0 < pageSize →
      get_total_pages total pageSize = ⌈(total : ℚ) / (pageSize : ℚ)⌉₊) ∧
    get_total_pages 95 10 = 10 ∧
    get_total_pages 100 10 = 10 ∧
    get_total_pages 0 10 = 0 := by
  refine ⟨?_, rfl, rfl, rfl⟩
  intro t p hp
  have hgd : get_total_pages t p = t ⌈/⌉ p := rfl
  have hp' : (0 : ℚ) < (p : ℚ) := by exact_mod_cast hp
  rw [hgd]
  apply le_antisymm
  · rw [ceilDiv_le_iff_le_mul hp]
    have h1 : (t : ℚ) / (p : ℚ) ≤ (⌈(t : ℚ) / (p : ℚ)⌉₊ : ℚ) := Nat.le_ceil _
    have h2 : (t : ℚ) ≤ (⌈(t : ℚ) / (p : ℚ)⌉₊ : ℚ) * (p : ℚ) :=
      (div_le_iff₀ hp').1 h1
    exact_mod_cast h2.trans_eq (mul_comm _ _)
  · rw [Nat.ceil_le]
    rw [div_le_iff₀ hp']
    have h1 : t ≤ p • (t ⌈/⌉ p) := le_smul_ceilDiv hp
    rw [smul_eq_mul] at h1
    exact_mod_cast h1.trans_eq (Nat.mul_comm _ _)

/-- Witness for `claim5_thm` at `total = 95`, `pageSize = 10`. -/
theorem claim5_witness :
    0 < 10 ∧ get_total_pages 95 10 = ⌈(95 : ℚ) / (10 : ℚ)⌉₊ :=
  ⟨by decide, claim5_thm.1 95 10 (by decide)⟩

/-! ## Claim C6: normalizer totality and the synthetic qualification -/

theorem collectQuals_map (ds : List Dict) :
    collectQuals (ds.map PyVal.dict) = some (ds.map supply_qual_fields) := by
  induction ds with
  | nil => rfl
  | cons d t ih => simp [collectQuals, ih]

/-- Computation lemma for `standardize` on a record whose core fields
are present and whose qualification array is a well-formed list of
dicts, shared by the normalization claims. -/
theorem standardize_eq (timeStr : String) (raw : Dict) (cio eqt : PyVal)
    (ds : List Dict)
    (hc : dictGet raw "cioName" = some cio)
    (he : dictGet raw "eqtName" = some eqt)
    (harr : pyIter ((dictGet raw "zzmxcxfArray").getD (PyVal.list [])) =
      some (ds.map PyVal.dict)) :
    standardize timeStr raw = some
      ⟨cio, eqt, (dictGet raw "orgId").getD (PyVal.str ""),
       (dictGet raw "cecId").getD (PyVal.str ""),
       (dictGet raw "csf").getD QUAL_DEFAULT_SCORE,
       if ds.isEmpty then
         [defaultQual eqt ((dictGet raw "csf").getD QUAL_DEFAULT_SCORE)
           ((dictGet raw "orgId").getD (PyVal.str ""))
           ((dictGet raw "cecId").getD (PyVal.str "")) timeStr]
       else ds.map supply_qual_fields⟩ := by
  simp only [standardize, hc, he, harr, Option.bind_eq_bind, Option.some_bind,
    collectQuals_map]
  cases ds with
  | nil => rfl
  | cons d t => rfl

/-- Claim C6: for every raw record carrying both core fields (and a
well-formed qualification array, per the data model: the entries are
dicts), `_standardize_data` yields a profile with at least one
qualification; when the record supplies no entries, the qualifications
are exactly one synthetic dict whose `score` and `csf` both equal the
company's own summary score and whose `eqlId` is `orgId`, else `cecId`,
else the timestamp-derived `"default_" + time.time()` value (Python
`or` chain). -/
theorem claim6_thm (timeStr : String) (raw : Dict) (cio eqt : PyVal)
    (ds : List Dict)
    (hc : dictGet raw "cioName" = some cio)
    (he : dictGet raw "eqtName" = some eqt)
    (harr : pyIter ((dictGet raw "zzmxcxfArray").getD (PyVal.list [])) =
      some (ds.map PyVal.dict)) :
    ∃ c : CompanyData, standardize timeStr raw = some c ∧
      1 ≤ c.qualifications.length ∧
      (ds = [] →
        c.qualifications = [defaultQual eqt c.csf c.orgId c.cecId timeStr] ∧
        dictGet (defaultQual eqt c.csf c.orgId c.cecId timeStr) "score" =
          some c.csf ∧
        dictGet (defaultQual eqt c.csf c.orgId c.cecId timeStr) "csf" =
          some c.csf ∧
        dictGet (defaultQual eqt c.csf c.orgId c.cecId timeStr) "eqlId" =
          some (pyOr (pyOr c.orgId c.cecId)
            (PyVal.str ("default_" ++ timeStr)))) := by
  refine ⟨_, standardize_eq timeStr raw cio eqt ds hc he harr, ?_, ?_⟩
  · cases ds with
    | nil => simp
    | cons d t => simp
  · intro hds
    subst hds
    exact ⟨by simp, rfl, rfl, rfl⟩

/-- Witness for `claim6_thm` on a record with both core fields and no
qualification entries. -/
theorem claim6_witness :
    ∃ c : CompanyData,
      standardize "0" [("cioName", PyVal.str "n"), ("eqtName", PyVal.str "q")] =
        some c ∧
      1 ≤ c.qualifications.length ∧
      (([] : List Dict) = [] →
        c.qualifications = [defaultQual (PyVal.str "q") c.csf c.orgId c.cecId "0"] ∧
        dictGet (defaultQual (PyVal.str "q") c.csf c.orgId c.cecId "0") "score" =
          some c.csf ∧
        dictGet (defaultQual (PyVal.str "q") c.csf c.orgId c.cecId "0") "csf" =
          some c.csf ∧
        dictGet (defaultQual (PyVal.str "q") c.csf c.orgId c.cecId "0") "eqlId" =
          some (pyOr (pyOr c.orgId c.cecId) (PyVal.str ("default_" ++ "0")))) :=
  claim6_thm "0" [("cioName", PyVal.str "n"), ("eqtName", PyVal.str "q")]
    (PyVal.str "n") (PyVal.str "q") [] rfl rfl rfl

/-! ## Claim C8: the company-level `csf` default

The specification claims `csf` defaults to the baseline 100 both when
absent and when present but non-numeric.  The code is
`raw_data.get('csf', self.config.QUAL_DEFAULT_SCORE)`: there is no type
check, so a present non-numeric `csf` is copied through as-is. -/

/-- Claim C8 is false on the code: a record with the string `"bad"` as
its `csf` is normalized with `csf = "bad"`, not the baseline 100. -/
theorem claim8_counterexample :
    (standardize "0" [("cioName", PyVal.str "n"), ("eqtName", PyVal.str "q"),
        ("csf", PyVal.str "bad")]).map CompanyData.csf =
      some (PyVal.str "bad") ∧
    PyVal.str "bad" ≠ QUAL_DEFAULT_SCORE :=
  ⟨rfl, fun h => nomatch h⟩

/-- Claim C8 as amended: the company-level `csf` is the raw record's
`csf` value whenever the key is present — numeric or not — and the
baseline `100.0` only when the key is absent. -/
theorem claim8_thm (timeStr : String) (raw : Dict) (cio eqt : PyVal)
    (ds : List Dict)
    (hc : dictGet raw "cioName" = some cio)
    (he : dictGet raw "eqtName" = some eqt)
    (harr : pyIter ((dictGet raw "zzmxcxfArray").getD (PyVal.list [])) =
      some (ds.map PyVal.dict)) :
    ∃ c : CompanyData, standardize timeStr raw = some c ∧
      c.csf = (dictGet raw "csf").getD QUAL_DEFAULT_SCORE :=
  ⟨_, standardize_eq timeStr raw cio eqt ds hc he harr, rfl⟩

/-- Witness for `claim8_thm` on a record with a string `csf`. -/
theorem claim8_witness :
    ∃ c : CompanyData,
      standardize "0" [("cioName", PyVal.str "n"), ("eqtName", PyVal.str "q"),
        ("csf", PyVal.str "bad")] = some c ∧
      c.csf = (dictGet [("cioName", PyVal.str "n"), ("eqtName", PyVal.str "q"),
        ("csf", PyVal.str "bad")] "csf").getD QUAL_DEFAULT_SCORE :=
  claim8_thm "0" [("cioName", PyVal.str "n"), ("eqtName", PyVal.str "q"),
    ("csf", PyVal.str "bad")] (PyVal.str "n") (PyVal.str "q") [] rfl rfl rfl

/-! ## Claim C9: per-qualification field defaults

The specification claims `zxjf`, `kf`, `jcf` are set to 0 both when
absent and when present but non-numeric.  In the code those three
defaults are the *int* `0`, and the overwrite branch fires only when
`isinstance(default, float)` — so present values of any type are kept.
Only `score`, whose default can be a float, is ever type-coerced. -/

theorem dictGet_supplyField_self_not_float (q : Dict) (f : String)
    (d : PyVal) (hd : isFloatV d = false) :
    dictGet (supplyField q f d) f = some ((dictGet q f).getD d) := by
  cases hv : dictGet q f with
  | none =>
      rw [dictGet_supplyField_absent q f d hv]
      rfl
  | some v =>
      rw [supplyField_not_float q f d v hv hd, hv]
      rfl

theorem supply_untouched (q : Dict) (g : String)
    (h1 : "score" ≠ g) (h2 : "zxjf" ≠ g) (h3 : "cxdj" ≠ g)
    (h4 : "kf" ≠ g) (h5 : "jcf" ≠ g) :
    dictGet (supply_qual_fields q) g = dictGet q g := by
  simp only [supply_qual_fields]
  rw [dictGet_supplyField_ne _ "jcf" g _ h5,
      dictGet_supplyField_ne _ "kf" g _ h4,
      dictGet_supplyField_ne _ "cxdj" g _ h3,
      dictGet_supplyField_ne _ "zxjf" g _ h2,
      dictGet_supplyField_ne _ "score" g _ h1]

theorem supply_zxjf (q : Dict) :
    dictGet (supply_qual_fields q) "zxjf" =
      some ((dictGet q "zxjf").getD (PyVal.int 0)) := by
  simp only [supply_qual_fields]
  rw [dictGet_supplyField_ne _ "jcf" "zxjf" _ (by decide),
      dictGet_supplyField_ne _ "kf" "zxjf" _ (by decide),
      dictGet_supplyField_ne _ "cxdj" "zxjf" _ (by decide),
      dictGet_supplyField_self_not_float _ "zxjf" (PyVal.int 0) rfl,
      dictGet_supplyField_ne _ "score" "zxjf" _ (by decide)]

theorem supply_kf (q : Dict) :
    dictGet (supply_qual_fields q) "kf" =
      some ((dictGet q "kf").getD (PyVal.int 0)) := by
  simp only [supply_qual_fields]
  rw [dictGet_supplyField_ne _ "jcf" "kf" _ (by decide),
      dictGet_supplyField_self_not_float _ "kf" (PyVal.int 0) rfl,
      dictGet_supplyField_ne _ "cxdj" "kf" _ (by decide),
      dictGet_supplyField_ne _ "zxjf" "kf" _ (by decide),
      dictGet_supplyField_ne _ "score" "kf" _ (by decide)]

theorem supply_jcf (q : Dict) :
    dictGet (supply_qual_fields q) "jcf" =
      some ((dictGet q "jcf").getD (PyVal.int 0)) := by
  simp only [supply_qual_fields]
  rw [dictGet_supplyField_self_not_float _ "jcf" (PyVal.int 0) rfl,
      dictGet_supplyField_ne _ "kf" "jcf" _ (by decide),
      dictGet_supplyField_ne _ "cxdj" "jcf" _ (by decide),
      dictGet_supplyField_ne _ "zxjf" "jcf" _ (by decide),
      dictGet_supplyField_ne _ "score" "jcf" _ (by decide)]

theorem supply_cxdj (q : Dict) :
    dictGet (supply_qual_fields q) "cxdj" =
      some ((dictGet q "cxdj").getD (PyVal.str "")) := by
  simp only [supply_qual_fields]
  rw [dictGet_supplyField_ne _ "jcf" "cxdj" _ (by decide),
      dictGet_supplyField_ne _ "kf" "cxdj" _ (by decide),
      dictGet_supplyField_self_not_float _ "cxdj" (PyVal.str "") rfl,
      dictGet_supplyField_ne _ "zxjf" "cxdj" _ (by decide),
      dictGet_supplyField_ne _ "score" "cxdj" _ (by decide)]

theorem supply_score_get (q : Dict) :
    dictGet (supply_qual_fields q) "score" =
      dictGet
        (supplyField q "score" ((dictGet q "csf").getD QUAL_DEFAULT_SCORE))
        "score" := by
  simp only [supply_qual_fields]
  rw [dictGet_supplyField_ne _ "jcf" "score" _ (by decide),
      dictGet_supplyField_ne _ "kf" "score" _ (by decide),
      dictGet_supplyField_ne _ "cxdj" "score" _ (by decide),
      dictGet_supplyField_ne _ "zxjf" "score" _ (by decide)]

/-- Claim C9 is false on the code: a qualification whose `zxjf` is the
string `"x"` keeps that string after `_supply_qual_fields`; it is not
set to 0, because the `zxjf` default is the int `0` and the overwrite
branch requires a float default. -/
theorem claim9_counterexample :
    dictGet (supply_qual_fields [("zxjf", PyVal.str "x")]) "zxjf" =
      some (PyVal.str "x") ∧
    PyVal.str "x" ≠ PyVal.int 0 :=
  ⟨rfl, fun h => nomatch h⟩

/-- Claim C9 as amended, the complete behavior of
`_supply_qual_fields`: a missing `score` is filled from the entry's own
`csf` if present, else the configured baseline `100.0`; a present
`score` is overwritten by that default only when the default is a float
and the value non-numeric, and kept otherwise; `zxjf`, `kf`, `jcf`
default to 0 and `cxdj` to `""` only when absent — present values are
kept whatever their type, because those defaults are not floats; `zzmx`
and `eqlId` are never touched. -/
theorem claim9_thm (q : Dict) :
    (dictGet q "score" = Option.none →
      dictGet (supply_qual_fields q) "score" =
        some ((dictGet q "csf").getD QUAL_DEFAULT_SCORE)) ∧
    (∀ v, dictGet q "score" = some v → isNum v = true →
      dictGet (supply_qual_fields q) "score" = some v) ∧
    (∀ v, dictGet q "score" = some v →
      isFloatV ((dictGet q "csf").getD QUAL_DEFAULT_SCORE) = false →
      dictGet (supply_qual_fields q) "score" = some v) ∧
    (∀ v, dictGet q "score" = some v → isNum v = false →
      isFloatV ((dictGet q "csf").getD QUAL_DEFAULT_SCORE) = true →
      dictGet (supply_qual_fields q) "score" =
        some ((dictGet q "csf").getD QUAL_DEFAULT_SCORE)) ∧
    dictGet (supply_qual_fields q) "zxjf" =
      some ((dictGet q "zxjf").getD (PyVal.int 0)) ∧
    dictGet (supply_qual_fields q) "kf" =
      some ((dictGet q "kf").getD (PyVal.int 0)) ∧
    dictGet (supply_qual_fields q) "jcf" =
      some ((dictGet q "jcf").getD (PyVal.int 0)) ∧
    dictGet (supply_qual_fields q) "cxdj" =
      some ((dictGet q "cxdj").getD (PyVal.str "")) ∧
    dictGet (supply_qual_fields q) "zzmx" = dictGet q "zzmx" ∧
    dictGet (supply_qual_fields q) "eqlId" = dictGet q "eqlId" := by
  refine ⟨?_, ?_, ?_, ?_, supply_zxjf q, supply_kf q, supply_jcf q,
    supply_cxdj q, supply_untouched q "zzmx" (by decide) (by decide)
      (by decide) (by decide) (by decide),
    supply_untouched q "eqlId" (by decide) (by decide) (by decide)
      (by decide) (by decide)⟩
  · intro h
    rw [supply_score_get]
    exact dictGet_supplyField_absent q "score" _ h
  · intro v hv hn
    rw [supply_score_get, supplyField_keep q "score" _ v hv (by simp [hn]), hv]
  · intro v hv hd
    rw [supply_score_get, supplyField_not_float q "score" _ v hv hd, hv]
  · intro v hv hn hd
    rw [supply_score_get]
    exact dictGet_supplyField_coerce q "score" _ v hv hd hn

/-- Witness for `claim9_thm` on a qualification with a non-numeric
`zxjf` and no `score` or `csf`. -/
theorem claim9_witness :
    dictGet (supply_qual_fields [("zxjf", PyVal.str "x")]) "score" =
      some ((dictGet [("zxjf", PyVal.str "x")] "csf").getD QUAL_DEFAULT_SCORE) ∧
    dictGet (supply_qual_fields [("zxjf", PyVal.str "x")]) "zxjf" =
      some ((dictGet [("zxjf", PyVal.str "x")] "zxjf").getD (PyVal.int 0)) :=
  ⟨(claim9_thm [("zxjf", PyVal.str "x")]).1 rfl,
   (claim9_thm [("zxjf", PyVal.str "x")]).2.2.2.2.1⟩

/-! ## Claim C10: in-place mutation and aliasing

`_supply_qual_fields` mutates the record's nested qualification dicts
and the profile's `qualifications` list stores those same references.
The aliasing half holds for every record; the mutation half does not —
a qualification dict already carrying all five fields (with a numeric
`score` when coercion could apply) is left untouched, so nothing is
added or overwritten. -/

theorem supplyAll_spec :
    ∀ (as : List Nat) (h : Heap), as.Nodup →
      (∀ a ∈ as, a < h.length) →
      ∃ h', supplyAll as h = some h' ∧
        h'.length = h.length ∧
        (∀ a ∈ as, h'[a]? = (h[a]?).map supply_qual_fields) ∧
        (∀ a, a ∉ as → h'[a]? = h[a]?) := by
  intro as
  induction as with
  | nil =>
      intro h _ _
      exact ⟨h, rfl, rfl, by simp, fun a _ => rfl⟩
  | cons a rest ih =>
      intro h hnd hlt
      have ha : a < h.length := hlt a (List.mem_cons_self a rest)
      have hget : h[a]? = some h[a] := List.getElem?_eq_getElem ha
      have hanotin : a ∉ rest := (List.nodup_cons.1 hnd).1
      have hndr : rest.Nodup := (List.nodup_cons.1 hnd).2
      set h1 := h.set a (supply_qual_fields h[a]) with hh1
      have hlen1 : h1.length = h.length := List.length_set h a _
      have hltr : ∀ b ∈ rest, b < h1.length := by
        intro b hb
        rw [hlen1]
        exact hlt b (List.mem_cons_of_mem a hb)
      obtain ⟨h', hrun, hlen, hin, hout⟩ := ih h1 hndr hltr
      refine ⟨h', ?_, hlen.trans hlen1, ?_, ?_⟩
      · simp only [supplyAll, hget, Option.bind_eq_bind, Option.some_bind]
        exact hrun
      · intro b hb
        rcases List.mem_cons.1 hb with hb | hb
        · subst hb
          rw [hout b hanotin, hh1, List.getElem?_set_self', hget]
          rfl
        · rw [hin b hb, hh1, List.getElem?_set_ne (by
            intro hab
            exact hanotin (hab ▸ hb))]
      · intro b hb
        have hbr : b ∉ rest := fun hr => hb (List.mem_cons_of_mem a hr)
        have hba : a ≠ b := fun hab => hb (hab ▸ List.mem_cons_self a rest)
        rw [hout b hbr, hh1, List.getElem?_set_ne hba]

/-- Claim C10 is false on the code as a universal statement: this raw
record has a non-empty `zzmxcxfArray` whose single qualification dict
already carries every supplied field with types the code never
coerces, so `_standardize_data` leaves the heap unchanged — nothing is
added or overwritten in place (while `qualifications` does alias the
input dict). -/
theorem claim10_counterexample :
    supply_qual_fields
      [("csf", PyVal.float 90), ("score", PyVal.int 5), ("zxjf", PyVal.int 0),
       ("cxdj", PyVal.str ""), ("kf", PyVal.int 0), ("jcf", PyVal.int 0)] =
      [("csf", PyVal.float 90), ("score", PyVal.int 5), ("zxjf", PyVal.int 0),
       ("cxdj", PyVal.str ""), ("kf", PyVal.int 0), ("jcf", PyVal.int 0)] ∧
    standardize_heap "0" [("cioName", PyVal.str "n"), ("eqtName", PyVal.str "q")]
      [0]
      [[("csf", PyVal.float 90), ("score", PyVal.int 5), ("zxjf", PyVal.int 0),
        ("cxdj", PyVal.str ""), ("kf", PyVal.int 0), ("jcf", PyVal.int 0)]] =
      some
        ([[("csf", PyVal.float 90), ("score", PyVal.int 5), ("zxjf", PyVal.int 0),
           ("cxdj", PyVal.str ""), ("kf", PyVal.int 0), ("jcf", PyVal.int 0)]],
         ⟨PyVal.str "n", PyVal.str "q", PyVal.str "", PyVal.str "",
          QUAL_DEFAULT_SCORE, [0]⟩) :=
  ⟨rfl, rfl⟩

/-- Claim C10 as amended: for every raw record with core fields and a
non-empty, duplicate-free, valid qualification-address list, the
returned profile's `qualifications` list aliases exactly the input
record's dict references, and each of those heap cells is overwritten
in place with `_supply_qual_fields` of its old content — an actual
mutation exactly when some supplied field was absent or float-coerced;
all other heap cells are untouched. -/
theorem claim10_thm (timeStr : String) (raw : Dict) (arrAddrs : List Nat)
    (h : Heap) (cio eqt : PyVal)
    (hc : dictGet raw "cioName" = some cio)
    (he : dictGet raw "eqtName" = some eqt)
    (hne : arrAddrs ≠ [])
    (hnd : arrAddrs.Nodup)
    (hlt : ∀ a ∈ arrAddrs, a < h.length) :
    ∃ h' : Heap, ∃ c : CompanyDataRef,
      standardize_heap timeStr raw arrAddrs h = some (h', c) ∧
      c.qualifications = arrAddrs ∧
      h'.length = h.length ∧
      (∀ a ∈ arrAddrs, h'[a]? = (h[a]?).map supply_qual_fields) ∧
      (∀ a, a ∉ arrAddrs → h'[a]? = h[a]?) := by
  obtain ⟨h', hrun, hlen, hin, hout⟩ := supplyAll_spec arrAddrs h hnd hlt
  refine ⟨h', ⟨cio, eqt, (dictGet raw "orgId").getD (PyVal.str ""),
    (dictGet raw "cecId").getD (PyVal.str ""),
    (dictGet raw "csf").getD QUAL_DEFAULT_SCORE, arrAddrs⟩,
    ?_, rfl, hlen, hin, hout⟩
  simp only [standardize_heap, hc, he, hrun, Option.bind_eq_bind,
    Option.some_bind, List.isEmpty_eq_true]
  rw [if_neg hne]

/-- Witness for `claim10_thm` on a one-entry record whose dict lacks
the supplied fields (a genuinely mutating run). -/
theorem claim10_witness :
    ∃ h' : Heap, ∃ c : CompanyDataRef,
      standardize_heap "0" [("cioName", PyVal.str "n"), ("eqtName", PyVal.str "q")]
        [0] [[("zzmx", PyVal.str "z")]] = some (h', c) ∧
      c.qualifications = [0] ∧
      h'.length = ([[("zzmx", PyVal.str "z")]] : Heap).length ∧
      (∀ a ∈ [0], h'[a]? =
        (([[("zzmx", PyVal.str "z")]] : Heap)[a]?).map supply_qual_fields) ∧
      (∀ a, a ∉ [0] → h'[a]? = ([[("zzmx", PyVal.str "z")]] : Heap)[a]?) :=
  claim10_thm "0" [("cioName", PyVal.str "n"), ("eqtName", PyVal.str "q")]
    [0] [[("zzmx", PyVal.str "z")]] (PyVal.str "n") (PyVal.str "q")
    rfl rfl (by simp) (by simp) (by simp)

/-! ## Claim C7: skipping an exhausted page without aborting -/

theorem pageLoop_ok (fetch : Nat → Nat → Option PyVal)
    (refresh : Nat → Nat → Bool) (timeStr : String) (p retryMax : Nat)
    (hr : ∀ a, refresh p a = true) :
    ∀ rem attempt, attempt + rem = retryMax →
      ∃ logs, pageLoop fetch refresh timeStr p retryMax attempt rem =
        Except.ok
          (((List.range' attempt rem).findSome?
              (attemptPage fetch timeStr p)).getD [], logs) ∧
        ((List.range' attempt rem).findSome? (attemptPage fetch timeStr p) =
            Option.none → 0 < rem → LogEntry.errorSkip p ∈ logs) := by
  intro rem
  induction rem with
  | zero =>
      intro attempt _
      exact ⟨[], rfl, fun _ h => absurd h (by omega)⟩
  | succ rem ih =>
      intro attempt hsum
      have hrange : List.range' attempt (rem + 1) =
          attempt :: List.range' (attempt + 1) rem := List.range'_succ _ _ _
      cases hA : attemptPage fetch timeStr p attempt with
      | some cs =>
          refine ⟨[LogEntry.pageOk p cs.length], ?_, ?_⟩
          · rw [hrange, List.findSome?_cons, hA]
            simp only [pageLoop, hA, Option.getD_some]
          · intro hnone _
            rw [hrange, List.findSome?_cons, hA] at hnone
            exact Option.noConfusion hnone
      | none =>
          by_cases hlast : attempt = retryMax - 1
          · have hrem : rem = 0 := by omega
            subst hrem
            refine ⟨[LogEntry.errorSkip p], ?_, ?_⟩
            · rw [hrange, List.findSome?_cons, hA]
              simp only [pageLoop, hA, if_pos hlast]
              rfl
            · intro _ _
              exact List.mem_singleton.2 rfl
          · have hrem : 0 < rem := by omega
            obtain ⟨logs, hrun, hskip⟩ := ih (attempt + 1) (by omega)
            refine ⟨LogEntry.warnRetry p :: logs, ?_, ?_⟩
            · rw [hrange, List.findSome?_cons, hA]
              simp only [pageLoop, hA, if_neg hlast, hr attempt, if_pos, hrun]
            · intro hnone _
              rw [hrange, List.findSome?_cons, hA] at hnone
              exact List.mem_cons_of_mem _ (hskip hnone hrem)

theorem crawlGo_ok (fetch : Nat → Nat → Option PyVal)
    (refresh : Nat → Nat → Bool) (timeStr : String) (retryMax : Nat)
    (hr : ∀ q a, refresh q a = true) :
    ∀ rem page, ∃ logs,
      crawlGo fetch refresh timeStr retryMax page rem =
        Except.ok
          ((List.range' page rem).flatMap (pageYield fetch timeStr retryMax),
            logs) ∧
      ∀ p, p ∈ List.range' page rem →
        (List.range retryMax).findSome? (attemptPage fetch timeStr p) =
          Option.none →
        0 < retryMax → LogEntry.errorSkip p ∈ logs := by
  intro rem
  induction rem with
  | zero =>
      intro page
      exact ⟨[], rfl, by simp⟩
  | succ rem ih =>
      intro page
      have hrange : List.range' page (rem + 1) =
          page :: List.range' (page + 1) rem := List.range'_succ _ _ _
      obtain ⟨logs1, hrun1, hskip1⟩ :=
        pageLoop_ok fetch refresh timeStr page retryMax (hr page) retryMax 0
          (by omega)
      obtain ⟨logs2, hrun2, hskip2⟩ := ih (page + 1)
      have hyield : ((List.range' 0 retryMax).findSome?
          (attemptPage fetch timeStr page)).getD [] =
          pageYield fetch timeStr retryMax page := by
        rw [pageYield, List.range_eq_range']
      refine ⟨logs1 ++ logs2, ?_, ?_⟩
      · simp only [crawlGo, hrun1, hrun2, hyield, hrange, List.flatMap_cons]
      · intro q hq hnone hpos
        rw [hrange] at hq
        rcases List.mem_cons.1 hq with hq | hq
        · subst hq
          refine List.mem_append_left _ (hskip1 ?_ hpos)
          rw [show List.range' 0 retryMax = List.range retryMax from
            (List.range_eq_range' retryMax).symm]
          exact hnone
        · exact List.mem_append_right _ (hskip2 q hq hnone hpos)

/-- Claim C7: when some page `p` fails on all of its `PAGE_RETRY_MAX`
fetch attempts (with the interleaved captcha refreshes succeeding, so
that every attempt is actually made), `_crawl_pages` logs an error for
`p`, skips it, and still processes and accumulates every other page
`1..totalPages` in order; the run terminates with the accumulated
(possibly incomplete) list. -/
theorem claim7_thm (fetch : Nat → Nat → Option PyVal)
    (refresh : Nat → Nat → Bool) (timeStr : String)
    (retryMax totalPages p : Nat)
    (hr : ∀ q a, refresh q a = true)
    (hfail : ∀ a, a < retryMax → fetch p a = Option.none)
    (hp1 : 1 ≤ p) (hp2 : p ≤ totalPages) (hmax : 0 < retryMax) :
    ∃ logs, crawl_pages fetch refresh timeStr retryMax totalPages =
      Except.ok
        ((List.range' 1 totalPages).flatMap
          (fun q => if q = p then [] else pageYield fetch timeStr retryMax q),
          logs) ∧
      LogEntry.errorSkip p ∈ logs := by
  have hA : ∀ a, a < retryMax → attemptPage fetch timeStr p a = Option.none := by
    intro a ha
    rw [attemptPage, hfail a ha]
    rfl
  have hnone : (List.range retryMax).findSome? (attemptPage fetch timeStr p) =
      Option.none := by
    rw [List.findSome?_eq_none_iff]
    intro a ha
    exact hA a (List.mem_range.1 ha)
  have hpy : pageYield fetch timeStr retryMax p = [] := by
    rw [pageYield, hnone]
    rfl
  have hfun : (fun q => if q = p then []
      else pageYield fetch timeStr retryMax q) =
      pageYield fetch timeStr retryMax := by
    funext q
    by_cases hq : q = p
    · subst hq
      rw [if_pos rfl, hpy]
    · rw [if_neg hq]
  obtain ⟨logs, hrun, hskip⟩ :=
    crawlGo_ok fetch refresh timeStr retryMax hr totalPages 1
  refine ⟨logs, ?_, ?_⟩
  · rw [hfun]
    exact hrun
  · exact hskip p (List.mem_range'_1.2 ⟨hp1, by omega⟩) hnone hmax

/-- Witness for `claim7_thm`: three pages, page 2 always failing with
`PAGE_RETRY_MAX = 2`, pages 1 and 3 succeeding with one record each. -/
theorem claim7_witness :
    ∃ logs,
      crawl_pages
        (fun q _ => if q = 2 then Option.none
          else some (PyVal.dict [("data",
            PyVal.list [PyVal.dict [("cioName", PyVal.str "n"),
              ("eqtName", PyVal.str "q")]])]))
        (fun _ _ => true) "0" 2 3 =
      Except.ok
        ((List.range' 1 3).flatMap
          (fun q => if q = 2 then []
            else pageYield
              (fun q _ => if q = 2 then Option.none
                else some (PyVal.dict [("data",
                  PyVal.list [PyVal.dict [("cioName", PyVal.str "n"),
                    ("eqtName", PyVal.str "q")]])]))
              "0" 2 q),
          logs) ∧
      LogEntry.errorSkip 2 ∈ logs :=
  claim7_thm
    (fun q _ => if q = 2 then Option.none
      else some (PyVal.dict [("data",
        PyVal.list [PyVal.dict [("cioName", PyVal.str "n"),
          ("eqtName", PyVal.str "q")]])]))
    (fun _ _ => true) "0" 2 3 2
    (fun _ _ => rfl) (fun _ _ => rfl) (by omega) (by omega) (by omega)

end Crawler
